import Mathlib

/-!
Shallow embedding of the C40 CFF Phase 3 dashboard (`src/app.py`).

The core engine of the dashboard is:
* `load_data` (app.py:134-143): strips whitespace from every column header and
  renames the first column whose lower-cased name contains the substring
  "investment" to `Investment`; it performs no other transformation, no
  validation, and never fails.
* the filter block (app.py:170-176): three sequential equality filters on
  `Region`, `Sector`, `Link to finance`, each skipped when the selected value
  is the string "All".
* KPI metrics (app.py:179-207): pandas `sum` / `len` / `nunique` / `mean`
  (with the code's explicit `if len > 0 else 0` guard on the mean).
* grouped sums (app.py:216, 241): `groupby(col)['Investment'].sum()`.
* ranking (app.py:287): `nlargest(10, 'Investment')[['City','Project','Investment']]`.
* export (app.py:355): `to_csv(index=False)` over the filtered frame.

pandas semantics embedded here: a missing numeric cell (NaN) is modelled as
`Option.none`; `Series.sum` and `groupby(...).sum()` skip missing values,
`Series.mean` divides the sum of present values by their number (and is NaN
when none are present), and `nlargest` excludes rows whose sort key is missing
and is stable for ties (`keep='first'`), returning an empty frame for `n ≤ 0`.
-/

/-- A spreadsheet / CSV cell after pandas type inference: a string, a number,
or missing (pandas `NaN`; produced e.g. from an empty cell or the literal
`"N/A"`, which is in pandas' default `na_values`). -/
inductive Cell where
  | str (s : String)
  | num (q : ℚ)
  | empty
deriving DecidableEq

/-- A raw tabular dataset as read by `pd.read_excel` / `pd.read_csv`:
a list of column headers and a list of rows of cells. -/
structure RawTable where
  headers : List String
  rows : List (List Cell)
deriving DecidableEq

/-- Does `pat` occur as a contiguous run at the head of `s`? -/
def matchesAt : List Char → List Char → Bool
  | _, [] => true
  | [], _ :: _ => false
  | c :: cs, d :: ds => c == d && matchesAt cs ds

/-- Does `pat` occur as a contiguous run anywhere in `s`?
Models Python's `pat in s` on strings. -/
def containsPat (pat : List Char) : List Char → Bool
  | [] => matchesAt [] pat
  | c :: cs => matchesAt (c :: cs) pat || containsPat pat cs

/-- Python's `str.strip()` / pandas `.str.strip()`: drop leading and trailing
whitespace (modelled on the character sequence of the string). -/
def strip (s : String) : String :=
  String.mk (((s.data.dropWhile Char.isWhitespace).reverse.dropWhile
    Char.isWhitespace).reverse)

/-- Models `'investment' in col.lower()` (app.py:140); `str.lower()` is
per-character lowercasing. -/
def isInvestmentHeader (col : String) : Bool :=
  containsPat "investment".data (col.data.map Char.toLower)

/-- Models the rename loop of `load_data` (app.py:139-142): scan the headers
left to right, rename the first investment-like one to `Investment`, stop. -/
def renameFirstInvestment : List String → List String
  | [] => []
  | h :: t =>
    if isInvestmentHeader h then "Investment" :: t
    else h :: renameFirstInvestment t

/-- Embeds `load_data` (app.py:134-143): strip every header
(`df.columns.str.strip()`), then rename the first investment-like column.
The rows are untouched; the function is total and never raises. -/
def load_data (t : RawTable) : RawTable :=
  { headers := renameFirstInvestment (t.headers.map strip),
    rows := t.rows }

/-- One normalized project record, i.e. one row of the dataframe as the
dashboard accesses it.  `investment` is `none` when the cell is missing
(pandas `NaN`). -/
structure Record where
  region : String
  sector : String
  finance : String
  city : String
  project : String
  investment : Option ℚ
deriving DecidableEq

abbrev Dataset := List Record

/-- The three sidebar facet selections (app.py:157,162,167); each is either
the sentinel string `"All"` or a concrete facet value. -/
structure Selection where
  region : String
  sector : String
  finance : String
deriving DecidableEq

/-- The filter block (app.py:170-176): three sequential conditional
equality filters over the dataframe. -/
def filtered_df (df : Dataset) (s : Selection) : Dataset :=
  let d1 := if s.region ≠ "All" then df.filter (fun r => r.region == s.region) else df
  let d2 := if s.sector ≠ "All" then d1.filter (fun r => r.sector == s.sector) else d1
  if s.finance ≠ "All" then d2.filter (fun r => r.finance == s.finance) else d2

/-- A record satisfies every non-`"All"` constraint of the selection. -/
def matchesSel (s : Selection) (r : Record) : Bool :=
  (s.region == "All" || r.region == s.region) &&
  ((s.sector == "All" || r.sector == s.sector) &&
   (s.finance == "All" || r.finance == s.finance))

/-- pandas `Series.sum()` over a numeric column: missing values (NaN) are
skipped, the empty sum is 0. -/
def seriesSum (xs : List (Option ℚ)) : ℚ := (xs.filterMap id).sum

/-- pandas `Series.mean()`: the sum of the present values divided by their
number; `none` (NaN) when no value is present. -/
def seriesMean (xs : List (Option ℚ)) : Option ℚ :=
  let vals := xs.filterMap id
  if vals.length = 0 then none else some (vals.sum / vals.length)

/-- Embeds `total_investment = filtered_df['Investment'].sum()` (app.py:182). -/
def total_investment (v : Dataset) : ℚ :=
  seriesSum (v.map (fun r => r.investment))

/-- Embeds `num_projects = len(filtered_df)` (app.py:189). -/
def num_projects (v : Dataset) : ℕ := v.length

/-- Embeds `num_cities = filtered_df['City'].nunique()` (app.py:196). -/
def num_cities (v : Dataset) : ℕ := ((v.map (fun r => r.city)).dedup).length

/-- Embeds `avg_investment = filtered_df['Investment'].mean() if len(filtered_df) > 0
else 0` (app.py:203). -/
def avg_investment (v : Dataset) : Option ℚ :=
  if 0 < v.length then seriesMean (v.map (fun r => r.investment)) else some 0

/-- The number of records of the view whose investment value is present
(pandas' non-NaN count, the denominator of `Series.mean`). -/
def numericCount (v : Dataset) : ℕ :=
  (v.filterMap (fun r => r.investment)).length

/-- Lexicographic comparison of strings by code point (Python / pandas string
order), on the character sequences. -/
def charListLe : List Char → List Char → Bool
  | [], _ => true
  | _ :: _, [] => false
  | c :: cs, d :: ds => if c == d then charListLe cs ds else decide (c < d)

/-- The distinct values of `key` over the view, in pandas `groupby` order
(`sort=True` is the groupby default, so keys come out sorted ascending). -/
def groupKeys (key : Record → String) (v : Dataset) : List String :=
  List.insertionSort (fun a b => charListLe a.data b.data = true)
    ((v.map key).dedup)

/-- Embeds `filtered_df.groupby(col)['Investment'].sum().reset_index()`: one
`(key, sum)` row per distinct key; the group sum skips missing values. -/
def groupInvestmentSum (key : Record → String) (v : Dataset) :
    List (String × ℚ) :=
  (groupKeys key v).map
    (fun k =>
      (k, seriesSum ((v.filter (fun r => key r == k)).map
        (fun r => r.investment))))

/-- Embeds `region_data = filtered_df.groupby('Region')['Investment'].sum().reset_index()`
(app.py:216). -/
def region_data (v : Dataset) : List (String × ℚ) :=
  groupInvestmentSum (fun r => r.region) v

/-- Embeds `sector_data = filtered_df.groupby('Sector')['Investment'].sum().reset_index()`
(app.py:241). -/
def sector_data (v : Dataset) : List (String × ℚ) :=
  groupInvestmentSum (fun r => r.sector) v

/-- The sort key used by `nlargest(n, 'Investment')`; only ever applied to
records whose investment value is present. -/
def invKey (r : Record) : ℚ := r.investment.getD 0

/-- Descending order on investment: `a` may come before `b` when
`invKey b ≤ invKey a`. -/
def invDesc (a b : Record) : Prop := invKey b ≤ invKey a

instance : DecidableRel invDesc :=
  fun a b => inferInstanceAs (Decidable (invKey b ≤ invKey a))

instance : IsTotal Record invDesc :=
  ⟨fun a b => le_total (invKey b) (invKey a)⟩

instance : IsTrans Record invDesc :=
  ⟨fun _ _ _ hab hbc => le_trans hbc hab⟩

/-- pandas `DataFrame.nlargest(n, 'Investment')` with the default
`keep='first'`: rows whose sort key is missing (NaN) are excluded; the
remaining rows are sorted descending by the key, stably (ties keep
first-occurrence order; a stable sort is rendered here by insertion sort);
the first `n` rows are returned.  For `n ≤ 0` pandas silently returns an
empty frame rather than raising. -/
def nlargest (n : ℤ) (v : Dataset) : Dataset :=
  if n ≤ 0 then []
  else (List.insertionSort invDesc
    (v.filter (fun r => r.investment.isSome))).take n.toNat

/-- Embeds `top_projects = filtered_df.nlargest(10, 'Investment')
[['City', 'Project', 'Investment']]` (app.py:287); the repository always
calls it with `n = 10`. -/
def top_projects (v : Dataset) (n : ℤ) : List (String × String × Option ℚ) :=
  (nlargest n v).map (fun r => (r.city, r.project, r.investment))

/-- The canonical column order of the normalized dataframe. -/
def canonicalHeaders : List String :=
  ["Region", "Sector", "Link to finance", "City", "Project", "Investment"]

/-- The CSV cell written for an investment value: missing values are written
as empty cells (and read back as NaN). -/
def invCell : Option ℚ → Cell
  | none => Cell.empty
  | some q => Cell.num q

/-- One CSV data row for a record, in canonical column order. -/
def recordToRow (r : Record) : List Cell :=
  [Cell.str r.region, Cell.str r.sector, Cell.str r.finance,
   Cell.str r.city, Cell.str r.project, invCell r.investment]

/-- Embeds `csv_data = filtered_df.to_csv(index=False)` (app.py:355), modelled at
the cell level: a header row followed by one row per record of the view, in
view order, no aggregation.  (The byte-level CSV encoding with standard
quoting is injective on cells and is not re-modelled here.) -/
def csv_data (v : Dataset) : RawTable :=
  { headers := canonicalHeaders, rows := v.map recordToRow }

/-- Embeds `df[c]` at one row: the cell in the column named `c`; column
lookup is by exact name, and a missing column surfaces as a missing cell. -/
def cellAt (hs : List String) (row : List Cell) (c : String) : Cell :=
  match hs.findIdx? (fun h => h == c) with
  | some i => row.getD i Cell.empty
  | none => Cell.empty

def cellAsStr : Cell → String
  | Cell.str s => s
  | _ => ""

def cellAsNum : Cell → Option ℚ
  | Cell.num q => some q
  | _ => none

/-- Read one row of a normalized table as the record the dashboard sees
through `df['Region']`, `df['Sector']`, `df['Link to finance']`,
`df['City']`, `df['Project']`, `df['Investment']`. -/
def rowToRecord (hs : List String) (row : List Cell) : Record :=
  { region := cellAsStr (cellAt hs row "Region"),
    sector := cellAsStr (cellAt hs row "Sector"),
    finance := cellAsStr (cellAt hs row "Link to finance"),
    city := cellAsStr (cellAt hs row "City"),
    project := cellAsStr (cellAt hs row "Project"),
    investment := cellAsNum (cellAt hs row "Investment") }

/-- The dataset the dashboard sees in a (normalized) table. -/
def tableToDataset (t : RawTable) : Dataset :=
  t.rows.map (rowToRecord t.headers)

/-- The three-record dataset of the spec's concrete scenario (spec §8). -/
def rAccra : Record := ⟨"Africa", "Transport", "Committed", "Accra", "P1", some 100⟩

def rLagos : Record := ⟨"Africa", "Energy", "Pipeline", "Lagos", "P2", some 200⟩

def rHanoi : Record := ⟨"Asia", "Transport", "Committed", "Hanoi", "P3", some 50⟩

def sampleData : Dataset := [rAccra, rLagos, rHanoi]

/-- A record whose `Region` value is literally the sentinel string `All`. -/
def rAllRegion : Record := ⟨"All", "Energy", "Committed", "Paris", "P9", some 10⟩

/-- A record with a missing (NaN) investment value, mirroring the spec's
malformed-value scenario. -/
def rNaN : Record := ⟨"Africa", "Energy", "Pipeline", "Lagos", "P2", none⟩

/-- A raw table with a negative investment cell and a missing one (pandas
reads the spreadsheet literal `"N/A"` as NaN, i.e. a missing cell). -/
def rawBadInvestments : RawTable :=
  ⟨["Region", "Sector", "Link to finance", "City", "Project", "Investment volume"],
   [[Cell.str "Africa", Cell.str "Transport", Cell.str "Committed",
     Cell.str "Accra", Cell.str "P1", Cell.num (-5)],
    [Cell.str "Asia", Cell.str "Energy", Cell.str "Pipeline",
     Cell.str "Hanoi", Cell.str "P2", Cell.empty]]⟩

/-- A raw table missing the investment column and all required facet
columns. -/
def rawNoSchema : RawTable := ⟨["Foo", "Bar"], [[Cell.str "x", Cell.str "y"]]⟩

/-! ### Sanity checks on concrete inputs -/

example :
    filtered_df
      [⟨"Africa", "Transport", "Committed", "Accra", "P1", some 100⟩,
       ⟨"Africa", "Energy", "Pipeline", "Lagos", "P2", some 200⟩,
       ⟨"Asia", "Transport", "Committed", "Hanoi", "P3", some 50⟩]
      ⟨"Africa", "All", "All"⟩ =
      [⟨"Africa", "Transport", "Committed", "Accra", "P1", some 100⟩,
       ⟨"Africa", "Energy", "Pipeline", "Lagos", "P2", some 200⟩] := by decide

example : strip "Investment volume " = "Investment volume" := by decide

example : isInvestmentHeader "Investment volume" = true := by decide

example : isInvestmentHeader "Region" = false := by decide

example :
    load_data ⟨["Region", " Investment volume "], [[Cell.str "Africa", Cell.num 5]]⟩ =
      ⟨["Region", "Investment"], [[Cell.str "Africa", Cell.num 5]]⟩ := by decide

example :
    total_investment
      [⟨"Africa", "Transport", "Committed", "Accra", "P1", some 100⟩,
       ⟨"Africa", "Energy", "Pipeline", "Lagos", "P2", none⟩] = 100 := by
  norm_num [total_investment, seriesSum, List.filterMap_cons]

example :
    avg_investment
      [⟨"Africa", "Transport", "Committed", "Accra", "P1", some 100⟩,
       ⟨"Africa", "Energy", "Pipeline", "Lagos", "P2", none⟩] = some 100 := by
  norm_num [avg_investment, seriesMean, List.filterMap_cons]

example :
    region_data
      [⟨"Africa", "T", "C", "Accra", "P1", some 100⟩,
       ⟨"Africa", "E", "P", "Lagos", "P2", some 200⟩] =
      [("Africa", 300)] := by
  norm_num [region_data, groupInvestmentSum, groupKeys, seriesSum,
    List.insertionSort, List.orderedInsert, List.filterMap_cons]

example :
    nlargest 2
      [⟨"Africa", "T", "C", "Accra", "P1", some 100⟩,
       ⟨"Africa", "E", "P", "Lagos", "P2", some 200⟩,
       ⟨"Asia", "T", "C", "Hanoi", "P3", none⟩,
       ⟨"Asia", "T", "C", "Delhi", "P4", some 200⟩] =
      [⟨"Africa", "E", "P", "Lagos", "P2", some 200⟩,
       ⟨"Asia", "T", "C", "Delhi", "P4", some 200⟩] := by decide

example :
    tableToDataset
      (load_data
        (csv_data [⟨"Africa", "T", "C", "Accra", "P1", some 100⟩,
                   ⟨"Asia", "E", "P", "Hanoi", "P2", none⟩])) =
      [⟨"Africa", "T", "C", "Accra", "P1", some 100⟩,
       ⟨"Asia", "E", "P", "Hanoi", "P2", none⟩] := by decide

/-! ### Properties of the Filter Engine -/

theorem mem_filtered_df {df : Dataset} {s : Selection} {r : Record} :
    r ∈ filtered_df df s ↔
      r ∈ df ∧ ((s.region = "All" ∨ r.region = s.region) ∧
        (s.sector = "All" ∨ r.sector = s.sector) ∧
        (s.finance = "All" ∨ r.finance = s.finance)) := by
  unfold filtered_df
  by_cases h1 : s.region = "All" <;> by_cases h2 : s.sector = "All" <;>
    by_cases h3 : s.finance = "All" <;>
      simp [h1, h2, h3, List.mem_filter, and_assoc] <;> tauto

theorem filtered_df_sublist (df : Dataset) (s : Selection) :
    (filtered_df df s).Sublist df := by
  unfold filtered_df
  by_cases h1 : s.region = "All" <;> by_cases h2 : s.sector = "All" <;>
    by_cases h3 : s.finance = "All" <;>
      simp only [h1, h2, h3, ne_eq, not_true_eq_false, not_false_eq_true,
        if_true, if_false, ite_true, ite_false] <;>
      first
        | exact List.Sublist.refl _
        | exact List.filter_sublist _
        | exact (List.filter_sublist _).trans (List.filter_sublist _)
        | exact ((List.filter_sublist _).trans
            (List.filter_sublist _)).trans (List.filter_sublist _)

/-- Claim C1: for every dataset and facet selection (each facet either `All`
or a concrete value), the filtered view is a subset of the dataset kept in
source order (a sublist), every record in it satisfies every non-`All`
constraint by exact string equality, and every record of the dataset
satisfying all non-`All` constraints appears in it. -/
theorem C1_filter_engine_correct (df : Dataset) (s : Selection) :
    (filtered_df df s).Sublist df ∧
    (∀ r ∈ filtered_df df s,
      (s.region ≠ "All" → r.region = s.region) ∧
      (s.sector ≠ "All" → r.sector = s.sector) ∧
      (s.finance ≠ "All" → r.finance = s.finance)) ∧
    (∀ r ∈ df,
      (s.region = "All" ∨ r.region = s.region) →
      (s.sector = "All" ∨ r.sector = s.sector) →
      (s.finance = "All" ∨ r.finance = s.finance) →
      r ∈ filtered_df df s) := by
  refine ⟨filtered_df_sublist df s, ?_, ?_⟩
  · intro r hr
    have h := (mem_filtered_df.mp hr).2
    exact ⟨fun hne => h.1.resolve_left hne,
      fun hne => h.2.1.resolve_left hne,
      fun hne => h.2.2.resolve_left hne⟩
  · intro r hr hA hB hC
    exact mem_filtered_df.mpr ⟨hr, hA, hB, hC⟩

theorem C1_witness :
    (filtered_df sampleData ⟨"Africa", "All", "All"⟩).Sublist sampleData ∧
    rLagos ∈ filtered_df sampleData ⟨"Africa", "All", "All"⟩ :=
  ⟨(C1_filter_engine_correct sampleData ⟨"Africa", "All", "All"⟩).1,
    (C1_filter_engine_correct sampleData ⟨"Africa", "All", "All"⟩).2.2 rLagos
      (by decide) (Or.inr (by decide)) (Or.inl (by decide))
      (Or.inl (by decide))⟩

/-- Claim C9: when a dataset contains a record whose facet value is literally
the string `All`, selecting that value imposes no constraint: the filter
returns the entire dataset, so such a record can only be isolated if it is
the whole dataset (the sentinel collides with the data value). -/
theorem C9_all_sentinel_collision (d : Dataset)
    (h : ∃ r ∈ d, r.region = "All" ∨ r.sector = "All" ∨ r.finance = "All") :
    filtered_df d ⟨"All", "All", "All"⟩ = d ∧
    ∀ r : Record, filtered_df d ⟨"All", "All", "All"⟩ = [r] → d = [r] := by
  have he : filtered_df d ⟨"All", "All", "All"⟩ = d := by simp [filtered_df]
  exact ⟨he, fun r hr => he ▸ hr⟩

theorem C9_witness :
    filtered_df [rAllRegion, rAccra] ⟨"All", "All", "All"⟩ =
      [rAllRegion, rAccra] :=
  (C9_all_sentinel_collision [rAllRegion, rAccra]
    ⟨rAllRegion, by decide, Or.inl (by decide)⟩).1

/-! ### Empty-view degradation and the ranking engine -/

/-- Claim C4: a selection whose filtered view is empty degrades gracefully:
total investment 0, project count 0, distinct city count 0, average
investment 0 (the code's explicit guard, no division by zero), and an empty
top-N — all values, no exception. -/
theorem C4_empty_view_degrades (d : Dataset) (s : Selection)
    (h : filtered_df d s = []) :
    total_investment (filtered_df d s) = 0 ∧
    num_projects (filtered_df d s) = 0 ∧
    num_cities (filtered_df d s) = 0 ∧
    avg_investment (filtered_df d s) = some 0 ∧
    ∀ n : ℤ, top_projects (filtered_df d s) n = [] := by
  refine ⟨by rw [h]; rfl, by rw [h]; rfl, by rw [h]; rfl, by rw [h]; rfl, ?_⟩
  intro n
  rw [h]
  by_cases hn : n ≤ 0 <;> simp [top_projects, nlargest, hn]

theorem C4_witness :
    avg_investment (filtered_df sampleData ⟨"Europe", "All", "All"⟩) = some 0 ∧
    top_projects (filtered_df sampleData ⟨"Europe", "All", "All"⟩) 10 = [] :=
  ⟨(C4_empty_view_degrades sampleData ⟨"Europe", "All", "All"⟩ (by decide)).2.2.2.1,
    (C4_empty_view_degrades sampleData ⟨"Europe", "All", "All"⟩ (by decide)).2.2.2.2 10⟩

/-- Claim C6 counterexample: calling the ranking step with `n = 0` (or any
`n ≤ 0`) does not raise anything — pandas `nlargest` silently returns an
empty frame, and the embedded function correspondingly returns a value,
the empty list, contradicting the claimed `InvalidArgument` rejection. -/
theorem C6_counterexample :
    nlargest 0 sampleData = [] ∧ nlargest (-3) sampleData = [] := by
  exact ⟨rfl, rfl⟩

/-- Claim C6 (amended): for every view and every `n ≤ 0`, the ranking step
silently yields the empty result (the value is clamped to an empty
selection, no `InvalidArgument` exists anywhere in the code); the
repository's only call site uses the constant `n = 10`. -/
theorem C6_amended_silent_empty (v : Dataset) (n : ℤ) (hn : n ≤ 0) :
    nlargest n v = [] ∧ top_projects v n = [] := by
  constructor <;> simp [nlargest, top_projects, hn]

theorem C6_witness :
    nlargest (-1) sampleData = [] ∧ top_projects sampleData (-1) = [] :=
  C6_amended_silent_empty sampleData (-1) (by decide)

theorem length_filter_isSome (v : Dataset) :
    (v.filter (fun r => r.investment.isSome)).length = numericCount v := by
  induction v with
  | nil => rfl
  | cons r t ih =>
    cases hr : r.investment <;>
      simp [numericCount, List.filterMap_cons, List.filter_cons, hr] <;>
      simpa [numericCount] using ih

/-- Claim C5 counterexample: on the one-record view whose investment is
missing (NaN), `nlargest` with `n = 1` returns the empty list, so the
result's length is `0`, not `min(n, |view|) = 1`: pandas `nlargest`
excludes NaN rows, falsifying the claimed length. -/
theorem C5_counterexample :
    (nlargest 1 [rNaN]).length ≠ min (Int.toNat 1) [rNaN].length := by decide

/-- Claim C5 (amended): for every view and positive `n`, the top-N result is
sorted descending by investment, has length `min(n, number of records with a
present (non-NaN) investment)` — rows with missing investment are excluded,
not counted — its elements are records of the view with present investment,
and ties are broken stably: records with equal investment keep their
relative order from the view. -/
theorem C5_amended_ranking (v : Dataset) (n : ℤ) (hn : 0 < n) :
    (nlargest n v).Pairwise invDesc ∧
    (nlargest n v).length = min n.toNat (numericCount v) ∧
    (∀ r ∈ nlargest n v, r ∈ v ∧ r.investment.isSome = true) ∧
    (∀ q : ℚ,
      ((nlargest n v).filter (fun r => r.investment == some q)).Sublist
        (v.filter (fun r => r.investment == some q))) := by
  have hn' : ¬ n ≤ 0 := by omega
  have hres : nlargest n v =
      (List.insertionSort invDesc
        (v.filter (fun r => r.investment.isSome))).take n.toNat := by
    simp [nlargest, hn']
  set L := v.filter (fun r => r.investment.isSome) with hL
  set S := List.insertionSort invDesc L with hS
  refine ⟨?_, ?_, ?_, ?_⟩
  · rw [hres]
    exact List.Pairwise.sublist (List.take_sublist _ _)
      (List.sorted_insertionSort invDesc L)
  · rw [hres, List.length_take, List.length_insertionSort,
      length_filter_isSome]
  · intro r hr
    rw [hres] at hr
    have hmem : r ∈ L := (List.mem_insertionSort invDesc).mp
      (List.take_subset _ _ hr)
    exact ⟨(List.mem_filter.mp hmem).1, (List.mem_filter.mp hmem).2⟩
  · intro q
    set p : Record → Bool := fun r => r.investment == some q with hp
    have hLp : (L.filter p).Pairwise invDesc := by
      apply List.pairwise_of_forall_mem_list
      intro a ha b hb
      have hqa : a.investment = some q := by
        simpa [hp] using (List.mem_filter.mp ha).2
      have hqb : b.investment = some q := by
        simpa [hp] using (List.mem_filter.mp hb).2
      show invKey b ≤ invKey a
      simp [invKey, hqa, hqb]
    have hsub : (L.filter p).Sublist S :=
      List.sublist_insertionSort hLp (List.filter_sublist L)
    have hSpLp : S.filter p = L.filter p := by
      have h1 : (L.filter p).Sublist (S.filter p) := by
        have := hsub.filter p
        rwa [List.filter_eq_self.mpr
          (fun a ha => (List.mem_filter.mp ha).2)] at this
      have h2 : (S.filter p).length = (L.filter p).length :=
        ((List.perm_insertionSort invDesc L).filter p).length_eq
      exact (h1.eq_of_length h2.symm).symm
    have hstep : ((nlargest n v).filter p).Sublist (L.filter p) := by
      rw [hres, ← hSpLp]
      exact (List.take_sublist _ _).filter p
    exact hstep.trans ((List.filter_sublist v).filter p)

theorem C5_witness :
    (nlargest 2 (sampleData ++ [rNaN])).Pairwise invDesc ∧
    (nlargest 2 (sampleData ++ [rNaN])).length =
      min (Int.toNat 2) (numericCount (sampleData ++ [rNaN])) :=
  ⟨(C5_amended_ranking (sampleData ++ [rNaN]) 2 (by decide)).1,
    (C5_amended_ranking (sampleData ++ [rNaN]) 2 (by decide)).2.1⟩

/-! ### Sum decomposition over groupings -/

theorem seriesSum_eq_sum_getD (l : Dataset) :
    seriesSum (l.map (fun r => r.investment)) =
      (l.map (fun r => r.investment.getD 0)).sum := by
  induction l with
  | nil => rfl
  | cons r t ih =>
    cases hr : r.investment <;>
      simp [seriesSum, List.filterMap_cons, hr] <;>
      simpa [seriesSum] using ih

theorem sum_map_ite_eq (keys : List String) (hnd : keys.Nodup) (k0 : String)
    (hk : k0 ∈ keys) (c : ℚ) :
    (keys.map (fun k => if k0 = k then c else 0)).sum = c := by
  induction keys with
  | nil => cases hk
  | cons a t ih =>
    rcases List.mem_cons.mp hk with h | h
    · subst h
      have hz : ((t.map (fun k => if k0 = k then c else 0))).sum = 0 := by
        apply List.sum_eq_zero
        intro x hx
        rcases List.mem_map.mp hx with ⟨k, hkt, hxe⟩
        have hne : k0 ≠ k := fun he => (List.nodup_cons.mp hnd).1 (he ▸ hkt)
        simp [← hxe, hne]
      simp [hz]
    · have hne : k0 ≠ a := by
        intro he
        exact (List.nodup_cons.mp hnd).1 (he ▸ h)
      simp only [List.map_cons, List.sum_cons, if_neg hne, zero_add]
      exact ih (List.nodup_cons.mp hnd).2 h

theorem sum_groups (keys : List String) (hnd : keys.Nodup)
    (g : Record → ℚ) (key : Record → String) (v : Dataset)
    (hcov : ∀ r ∈ v, key r ∈ keys) :
    (keys.map
      (fun k => ((v.filter (fun r => key r == k)).map g).sum)).sum =
      (v.map g).sum := by
  induction v with
  | nil => simp
  | cons r t ih =>
    have hsplit : ∀ k : String,
        (((r :: t).filter (fun x => key x == k)).map g).sum =
          (if key r = k then g r else 0) +
            ((t.filter (fun x => key x == k)).map g).sum := by
      intro k
      by_cases h : key r = k <;> simp [List.filter_cons, h]
    rw [List.map_congr_left (fun k _ => hsplit k), List.sum_map_add,
      sum_map_ite_eq keys hnd (key r) (hcov r (by simp)) (g r),
      ih (fun x hx => hcov x (List.mem_cons_of_mem r hx))]
    simp

/-- The group keys cover the view and are free of duplicates. -/
theorem groupKeys_nodup (key : Record → String) (v : Dataset) :
    (groupKeys key v).Nodup :=
  (List.perm_insertionSort _ _).symm.nodup (List.nodup_dedup _)

theorem mem_groupKeys (key : Record → String) {v : Dataset} {r : Record}
    (hr : r ∈ v) : key r ∈ groupKeys key v := by
  unfold groupKeys
  rw [List.mem_insertionSort, List.mem_dedup]
  exact List.mem_map.mpr ⟨r, hr, rfl⟩

theorem groupInvestmentSum_snd_sum (key : Record → String) (v : Dataset) :
    ((groupInvestmentSum key v).map Prod.snd).sum = total_investment v := by
  unfold groupInvestmentSum total_investment
  rw [List.map_map]
  have hcomp : (Prod.snd ∘ fun k =>
      (k, seriesSum ((v.filter (fun r => key r == k)).map
        (fun r => r.investment)))) =
      fun k => seriesSum ((v.filter (fun r => key r == k)).map
        (fun r => r.investment)) := rfl
  rw [hcomp,
    List.map_congr_left
      (fun k _ => seriesSum_eq_sum_getD (v.filter (fun r => key r == k))),
    seriesSum_eq_sum_getD v]
  exact sum_groups (groupKeys key v) (groupKeys_nodup key v)
    (fun r => r.investment.getD 0) key v (fun r hr => mem_groupKeys key hr)

/-- Claim C7: for every filtered view the ungrouped total investment equals
the sum of the per-region group sums and the sum of the per-sector group
sums: grouping by a facet neither loses nor double-counts the measure. -/
theorem C7_sum_decomposition (v : Dataset) :
    total_investment v = ((region_data v).map Prod.snd).sum ∧
    total_investment v = ((sector_data v).map Prod.snd).sum :=
  ⟨(groupInvestmentSum_snd_sum (fun r => r.region) v).symm,
    (groupInvestmentSum_snd_sum (fun r => r.sector) v).symm⟩

/-! ### NaN asymmetry in the KPI row -/

theorem seriesSum_eq_filterMap (v : Dataset) :
    seriesSum (v.map (fun r => r.investment)) =
      (v.filterMap (fun r => r.investment)).sum := by
  unfold seriesSum
  rw [List.filterMap_map]
  rfl

/-- Claim C10: when records of a non-empty view have missing (NaN)
investment values, the KPIs skip them asymmetrically — the total sums the
present values only, the project count counts every record, and the average
divides the sum of present values by the number of present values — so
average × count need not equal total (witnessed by an explicit view). -/
theorem C10_nan_kpi_asymmetry (v : Dataset)
    (hmiss : ∃ r ∈ v, r.investment = none)
    (hnum : 0 < numericCount v) :
    total_investment v = (v.filterMap (fun r => r.investment)).sum ∧
    num_projects v = v.length ∧
    avg_investment v =
      some ((v.filterMap (fun r => r.investment)).sum / (numericCount v : ℚ)) ∧
    ∃ w : Dataset, (∃ r ∈ w, r.investment = none) ∧
      ∀ q : ℚ, avg_investment w = some q →
        q * (num_projects w : ℚ) ≠ total_investment w := by
  obtain ⟨r0, hr0, _⟩ := hmiss
  have hlen : 0 < v.length := List.length_pos_of_mem hr0
  refine ⟨seriesSum_eq_filterMap v, rfl, ?_, ?_⟩
  · have hvals : (v.map (fun r => r.investment)).filterMap id =
        v.filterMap (fun r => r.investment) := by
      rw [List.filterMap_map]; rfl
    have hlz : ¬ ((v.map (fun r => r.investment)).filterMap id).length = 0 := by
      rw [hvals]
      have := hnum
      unfold numericCount at this
      omega
    unfold avg_investment seriesMean
    rw [if_pos hlen, if_neg hlz, hvals]
    rfl
  · refine ⟨[rNaN, rAccra], ⟨rNaN, by simp, rfl⟩, ?_⟩
    intro q hq
    have hv : avg_investment [rNaN, rAccra] = some 100 := by
      norm_num [avg_investment, seriesMean, List.filterMap_cons, rNaN, rAccra]
    have hq' : q = 100 := by
      rw [hv, Option.some_inj] at hq
      exact hq.symm
    subst hq'
    have ht : total_investment [rNaN, rAccra] = 100 := by
      norm_num [total_investment, seriesSum, List.filterMap_cons, rNaN, rAccra]
    rw [ht]
    norm_num [num_projects]

theorem C10_witness :
    total_investment [rNaN, rAccra] =
      ([rNaN, rAccra].filterMap (fun r => r.investment)).sum ∧
    avg_investment [rNaN, rAccra] =
      some (([rNaN, rAccra].filterMap (fun r => r.investment)).sum /
        (numericCount [rNaN, rAccra] : ℚ)) :=
  ⟨(C10_nan_kpi_asymmetry [rNaN, rAccra] ⟨rNaN, by simp, rfl⟩
      (by decide)).1,
    (C10_nan_kpi_asymmetry [rNaN, rAccra] ⟨rNaN, by simp, rfl⟩
      (by decide)).2.2.1⟩

/-! ### What dataset load actually does -/

/-- Claim C2 counterexample: after loading `rawBadInvestments`, the record
with raw investment `-5` still has investment `some (-5)` — negative, not
coerced to 0 — and the record whose raw cell was non-numeric (`"N/A"`) has a
missing investment, not 0.  `load_data` performs no value coercion at all. -/
theorem C2_counterexample :
    (∃ r ∈ tableToDataset (load_data rawBadInvestments),
      r.investment = some (-5) ∧ ¬ (0 : ℚ) ≤ -5 ∧ r.investment ≠ some 0) ∧
    (∃ r ∈ tableToDataset (load_data rawBadInvestments),
      r.investment = none ∧ r.investment ≠ some 0) := by decide

/-- Claim C2 (amended): dataset load never touches the data rows: every row
passes through `load_data` unchanged (a negative investment value stays
negative, a non-numeric one arrives as missing — not 0 — and no record is
dropped or rejected); a record matching the facet constraints still appears
in the corresponding filtered view whatever its investment value, and a
missing investment contributes 0 to the investment total. -/
theorem C2_amended_no_coercion :
    (∀ t : RawTable, (load_data t).rows = t.rows) ∧
    (∀ (d : Dataset) (s : Selection) (r : Record), r ∈ d →
      (s.region = "All" ∨ r.region = s.region) →
      (s.sector = "All" ∨ r.sector = s.sector) →
      (s.finance = "All" ∨ r.finance = s.finance) →
      r ∈ filtered_df d s) ∧
    (∀ (r : Record) (d : Dataset), r.investment = none →
      total_investment (r :: d) = total_investment d) := by
  refine ⟨fun t => rfl, ?_, ?_⟩
  · intro d s r hr h1 h2 h3
    exact mem_filtered_df.mpr ⟨hr, h1, h2, h3⟩
  · intro r d hr
    simp [total_investment, seriesSum, List.filterMap_cons, hr]

theorem C2_witness :
    (load_data rawBadInvestments).rows = rawBadInvestments.rows ∧
    total_investment (rNaN :: sampleData) = total_investment sampleData :=
  ⟨C2_amended_no_coercion.1 rawBadInvestments,
    C2_amended_no_coercion.2.2 rNaN sampleData rfl⟩

/-- Claim C3 counterexample: loading a table with no investment-like column
and none of the required columns does not abort and raises no `SchemaError`
— `load_data` returns the table unchanged (headers merely stripped), with
`Investment` and `Region` still absent.  No schema validation exists. -/
theorem C3_counterexample :
    load_data rawNoSchema = ⟨["Foo", "Bar"], [[Cell.str "x", Cell.str "y"]]⟩ ∧
    "Investment" ∉ (load_data rawNoSchema).headers ∧
    "Region" ∉ (load_data rawNoSchema).headers := by decide

theorem renameFirstInvestment_id (hs : List String)
    (h : ∀ c ∈ hs, isInvestmentHeader c = false) :
    renameFirstInvestment hs = hs := by
  induction hs with
  | nil => rfl
  | cons a t ih =>
    unfold renameFirstInvestment
    rw [if_neg (by simp [h a (by simp)]),
      ih (fun c hc => h c (List.mem_cons_of_mem a hc))]

/-- Claim C3 (amended): `load_data` is total — it returns a normalized table
for every input and never fails, so no `SchemaError` aborts the load.  When
no header is investment-like, the table comes back with only its headers
stripped, and the canonical `Investment` column does not exist in the
result; the failure surfaces only later, at the first downstream column
access (`df['Investment']`, a pandas `KeyError`), not at load time. -/
theorem C3_amended_no_validation (t : RawTable)
    (h : ∀ c ∈ t.headers, isInvestmentHeader (strip c) = false) :
    load_data t = ⟨t.headers.map strip, t.rows⟩ ∧
    "Investment" ∉ (load_data t).headers := by
  have hmap : ∀ c ∈ t.headers.map strip, isInvestmentHeader c = false := by
    intro c hc
    rcases List.mem_map.mp hc with ⟨c0, hc0, rfl⟩
    exact h c0 hc0
  have hren : renameFirstInvestment (t.headers.map strip) =
      t.headers.map strip := renameFirstInvestment_id _ hmap
  constructor
  · unfold load_data
    rw [hren]
  · unfold load_data
    intro hmem
    rw [hren] at hmem
    have hfalse := hmap "Investment" hmem
    have htrue : isInvestmentHeader "Investment" = true := by decide
    rw [htrue] at hfalse
    exact Bool.noConfusion hfalse

theorem C3_witness :
    load_data rawNoSchema =
      ⟨rawNoSchema.headers.map strip, rawNoSchema.rows⟩ ∧
    "Investment" ∉ (load_data rawNoSchema).headers :=
  C3_amended_no_validation rawNoSchema (by decide)

/-! ### Export round trip -/

theorem rowToRecord_recordToRow (r : Record) :
    rowToRecord canonicalHeaders (recordToRow r) = r := by
  cases r with
  | mk region sector finance city project investment =>
    cases investment <;> rfl

/-- Claim C8: the export is a header row plus exactly one row per record of
the view, in view order, with no aggregation; normalizing the exported
table (`load_data` on the parsed CSV) reproduces a dataset with the same
rows and the same field values as the view. -/
theorem C8_export_round_trip (v : Dataset) :
    (csv_data v).headers = canonicalHeaders ∧
    (csv_data v).rows = v.map recordToRow ∧
    (csv_data v).rows.length = v.length ∧
    tableToDataset (load_data (csv_data v)) = v := by
  refine ⟨rfl, rfl, by simp [csv_data], ?_⟩
  show (load_data (csv_data v)).rows.map
    (rowToRecord (load_data (csv_data v)).headers) = v
  have hhead : (load_data (csv_data v)).headers = canonicalHeaders := by
    show renameFirstInvestment (canonicalHeaders.map strip) = canonicalHeaders
    decide
  have hrows : (load_data (csv_data v)).rows = v.map recordToRow := rfl
  rw [hrows, hhead, List.map_map]
  have hid : List.map (rowToRecord canonicalHeaders ∘ recordToRow) v =
      List.map id v :=
    List.map_congr_left (fun r _ => rowToRecord_recordToRow r)
  rw [hid, List.map_id]
